import Mathlib

/-!
# The Cloudflare state-backend provider (`pkg/project/provider/cloudflare.go`)

A shallow embedding of `CloudflareProvider` and of the library functions it
calls, followed by the properties of its life cycle: credential resolution
(`Init`), bootstrap of the state bucket (`AsHome`), the blob operations
(`putData`, `getData`, `removeData`), the passphrase helpers and `Env`.

Conventions of the embedding.

* A Go `string` and a Go `[]byte` are sequences of bytes (`List UInt8`);
  the conversions `[]byte(s)` and `string(b)` copy the bytes.
* A Go function that can abort with a run-time panic returns an `Outcome`.
* A method with a pointer receiver returns the receiver after the call.
* The remote API is a `Backend`: the calls of the `cloudflare-go` client the
  provider uses, as transitions of a remote state. Every call the provider
  issues is recorded in the `log` of the `World`.
* `slog.Info` has no effect on the values computed and is left out.
-/

namespace Ion

/-! ## Go values -/

/-- A Go `string`: an immutable sequence of bytes. -/
abbrev GoString := List UInt8

/-- A Go `[]byte`. -/
abbrev Bytes := List UInt8

/-- The bytes of a string literal of the source (all of them are ASCII). -/
def ascii (s : String) : GoString := s.data.map Char.toUInt8

/-- An error handed back by the client library (not nil); `Error` is the text
`err.Error()` returns. -/
structure APIError where
  Error : GoString
deriving DecidableEq, Repr

/-- A Go `error` value (not nil) as the provider returns it: its own
`*util.ReadableError`, a type of this repository that the client library
cannot build, or an error of the client library handed on unchanged. -/
inductive GoError where
  | readable (message : GoString)
  | api (e : APIError)
deriving DecidableEq, Repr

/-- A value of type `interface{}` as the override map of `Init` can hold it. -/
inductive Any where
  | nil
  | str (s : GoString)
  | int (n : Int)
  | bool (b : Bool)
deriving DecidableEq, Repr

/-- A Go `map[string]β`, as the list of its entries (keys are distinct). -/
abbrev GoMap (β : Type) := List (GoString × β)

/-- Assignment `m[k] = v`. -/
def GoMap.set {β : Type} (m : GoMap β) (k : GoString) (v : β) : GoMap β :=
  (k, v) :: m.filter (fun e => e.1 ≠ k)

/-- Index expression `args[k]` on a `map[string]interface{}`: the nil
interface when the key is absent. -/
def Any.index (args : GoMap Any) (k : GoString) : Any :=
  (args.lookup k).getD Any.nil

/-- Result of running a Go function: it returns, or it aborts with a panic. -/
inductive Outcome (α : Type) where
  | ret (a : α)
  | crash (msg : String)
deriving DecidableEq, Repr

/-! ## `path/filepath` (Unix) -/

/-- Constant `filepath.Separator`, the byte of the slash. -/
def Separator : UInt8 := 47

/-- The byte of the dot. -/
def dot : UInt8 := 46

/-- Inner loop of the `..` case of `Clean`, entered after `out.w--` with the
new `w`: `for out.w > dotdot && !os.IsPathSeparator(out.index(out.w)) { out.w-- }`.
`out` is the buffer before the truncation. -/
def backtrack (out : List UInt8) (dotdot : Nat) : Nat → Nat
  | 0 => 0
  | w + 1 =>
    if w + 1 > dotdot ∧ out.getD (w + 1) 0 ≠ Separator then backtrack out dotdot w
    else w + 1

/-- Main loop `for r < n` of `filepath.Clean`. The second argument is
`path[r:]`, `out` is the output written so far (`out.w` is its length); one
unit of fuel is spent per iteration. -/
def cleanLoop (rooted : Bool) : Nat → List UInt8 → List UInt8 → Nat → Option (List UInt8)
  | _, [], out, _ => some out
  | 0, _ :: _, _, _ => none
  | fuel + 1, c :: rest, out, dotdot =>
    if c = Separator then
      -- empty path element
      cleanLoop rooted fuel rest out dotdot
    else if c = dot ∧ (rest = [] ∨ rest.head? = some Separator) then
      -- . element
      cleanLoop rooted fuel rest out dotdot
    else if c = dot ∧ rest.head? = some dot ∧
        (rest.tail = [] ∨ rest.tail.head? = some Separator) then
      -- .. element: remove to last separator
      if out.length > dotdot then
        cleanLoop rooted fuel rest.tail
          (out.take (backtrack out dotdot (out.length - 1))) dotdot
      else if !rooted then
        let out1 := (if out.length > 0 then out ++ [Separator] else out) ++ [dot, dot]
        cleanLoop rooted fuel rest.tail out1 out1.length
      else
        cleanLoop rooted fuel rest.tail out dotdot
    else
      -- real path element: add slash if needed, copy element
      let out1 :=
        if (rooted ∧ out.length ≠ 1) ∨ (!rooted ∧ out.length ≠ 0) then out ++ [Separator]
        else out
      let elemRest := (c :: rest).span (fun b => b ≠ Separator)
      cleanLoop rooted fuel elemRest.2 (out1 ++ elemRest.1) dotdot

/-- Function `filepath.Clean` on Unix (no volume name, `FromSlash` is the
identity). The loop gets one unit of fuel per byte of the path, which is
enough (`Clean_terminates`). -/
def Clean (path : GoString) : GoString :=
  if path = [] then [dot]
  else
    let rooted : Bool := path.head? = some Separator
    let res :=
      if rooted then cleanLoop rooted path.length path.tail [Separator] 1
      else cleanLoop rooted path.length path [] 0
    match res with
    | none => path
    | some out => if out.length = 0 then [dot] else out

/-- Function `filepath.Join` on Unix: the elements from the first non-empty
one on, joined with the separator and cleaned; the empty string when all
elements are empty. -/
def Join (elems : List GoString) : GoString :=
  match elems.dropWhile (fun e => e = []) with
  | [] => []
  | e :: es => Clean ([Separator].intercalate (e :: es))

/-! ## The `cloudflare-go` client -/

/-- Authentication modes of the client (`AuthKeyEmail`, `AuthToken`). -/
inductive AuthType where
  | AuthKeyEmail
  | AuthToken
deriving DecidableEq, Repr

/-- The fields of `cloudflare.API` the constructors set. -/
structure API where
  APIKey : GoString
  APIEmail : GoString
  APIToken : GoString
  authType : AuthType
deriving DecidableEq, Repr

/-- Constructor `cloudflare.NewWithAPIToken(token)` without options: nil (with
an error, which `Init` drops) exactly for the empty token. -/
def NewWithAPIToken (token : GoString) : Option API :=
  if token = [] then none
  else some { APIKey := [], APIEmail := [], APIToken := token, authType := AuthType.AuthToken }

/-- Constructor `cloudflare.New(key, email)` without options: nil (with an
error, which `Init` drops) exactly when the key or the email is empty. -/
def New (key email : GoString) : Option API :=
  if key = [] ∨ email = [] then none
  else some { APIKey := key, APIEmail := email, APIToken := [], authType := AuthType.AuthKeyEmail }

/-- Type `cloudflare.ResourceContainer`, restricted to its identifier. -/
structure ResourceContainer where
  Identifier : GoString
deriving DecidableEq, Repr

/-- Function `cloudflare.AccountIdentifier(id)`. -/
def AccountIdentifier (id : GoString) : ResourceContainer := { Identifier := id }

/-- Type `cloudflare.Account`, restricted to its id. -/
structure Account where
  ID : GoString
deriving DecidableEq, Repr

/-- Type `cloudflare.R2Bucket`, restricted to its name. -/
structure R2Bucket where
  Name : GoString
deriving DecidableEq, Repr

/-- The HTTP methods the provider uses (`http.MethodGet`, `http.MethodPut`,
`http.MethodDelete`). -/
inductive Method where
  | GET
  | PUT
  | DELETE
deriving DecidableEq, Repr

/-- A call of the client that reaches the remote API. -/
inductive Request where
  | accounts
  | listR2Buckets (account : GoString) (name : GoString)
  | createR2Bucket (account : GoString) (name : GoString)
  | raw (method : Method) (path : GoString) (body : Option Bytes)
deriving DecidableEq, Repr

/-- The remote API behind the client, over a remote state `σ`: the four calls
the provider makes, each returning the Go pair (value, error) and the state
after the call. `makeRequestContext` is the raw authenticated request
(method, path, body); its body is an `io.Reader` (nil for no body), given by
the bytes it yields. -/
structure Backend (σ : Type) where
  Accounts : API → σ → Except APIError (List Account) × σ
  ListR2Buckets : API → ResourceContainer → GoString → σ → Except APIError (List R2Bucket) × σ
  CreateR2Bucket : API → ResourceContainer → GoString → σ → Except APIError R2Bucket × σ
  makeRequestContext : API → Method → GoString → Option Bytes → σ → Except APIError Bytes × σ

/-- The remote state together with the log of the calls issued so far
(oldest first). -/
structure World (σ : Type) where
  remote : σ
  log : List Request

/-- Call `c.client.Accounts(ctx, AccountsListParams{})`, logged. -/
def World.Accounts {σ : Type} (B : Backend σ) (api : API) (w : World σ) :
    Except APIError (List Account) × World σ :=
  let r := B.Accounts api w.remote
  (r.1, { remote := r.2, log := w.log ++ [Request.accounts] })

/-- Call `c.client.ListR2Buckets(ctx, rc, ListR2BucketsParams{Name: name})`, logged. -/
def World.ListR2Buckets {σ : Type} (B : Backend σ) (api : API) (rc : ResourceContainer)
    (name : GoString) (w : World σ) : Except APIError (List R2Bucket) × World σ :=
  let r := B.ListR2Buckets api rc name w.remote
  (r.1, { remote := r.2, log := w.log ++ [Request.listR2Buckets rc.Identifier name] })

/-- Call `c.client.CreateR2Bucket(ctx, rc, CreateR2BucketParameters{Name: name})`, logged. -/
def World.CreateR2Bucket {σ : Type} (B : Backend σ) (api : API) (rc : ResourceContainer)
    (name : GoString) (w : World σ) : Except APIError R2Bucket × World σ :=
  let r := B.CreateR2Bucket api rc name w.remote
  (r.1, { remote := r.2, log := w.log ++ [Request.createR2Bucket rc.Identifier name] })

/-- Call `makeRequestContext(c.client, ctx, method, path, body)`, logged. -/
def World.makeRequestContext {σ : Type} (B : Backend σ) (api : API) (method : Method)
    (path : GoString) (body : Option Bytes) (w : World σ) : Except APIError Bytes × World σ :=
  let r := B.makeRequestContext api method path body w.remote
  (r.1, { remote := r.2, log := w.log ++ [Request.raw method path body] })

/-! ## The provider -/

/-- Type `bootstrap`. -/
structure bootstrap where
  State : GoString
deriving DecidableEq, Repr

/-- Type `CloudflareProvider`; `none` is the nil pointer, and the nil map
of `env` is the empty map. -/
structure CloudflareProvider where
  client : Option API
  identifier : Option ResourceContainer
  env : GoMap GoString
  bootstrap : Option bootstrap
deriving DecidableEq, Repr

/-- The zero value `&CloudflareProvider{}`. -/
def CloudflareProvider.zero : CloudflareProvider :=
  { client := none, identifier := none, env := [], bootstrap := none }

/-- Modelled from the spec: `util.NewReadableError` of `internal/util` is not
among the sources; the error it builds is taken to carry the given message
(the wrapped error passed by `Init` is nil). -/
def NewReadableError (message : GoString) : GoError := GoError.readable message

/-- The error `Init` returns when no client could be built. -/
def notInitialized : GoError :=
  NewReadableError (ascii "Cloudflare API not initialized. Please provide CLOUDFLARE_API_TOKEN or CLOUDFLARE_API_KEY and CLOUDFLARE_EMAIL environment variables or in the provider section of the project configuration file.")

/-- The statement `if args[k] != nil { x = args[k].(string) }` on a variable
holding `ambient`: the new value of the variable, or `none` when the type
assertion panics. -/
def override (args : GoMap Any) (k : GoString) (ambient : GoString) : Option GoString :=
  match Any.index args k with
  | Any.nil => some ambient
  | Any.str s => some s
  | _ => none

/-- Lines 42 to 67 of `Init`, after the three overrides were applied. -/
def Init.resolve {σ : Type} (B : Backend σ) (c : CloudflareProvider)
    (accountID apiToken apiKey email : GoString) (w : World σ) :
    Outcome (Option GoError) × CloudflareProvider × World σ :=
  let api0 : Option API := none
  let env0 : GoMap GoString := []
  let api1 := if apiToken ≠ [] then NewWithAPIToken apiToken else api0
  let env1 := if apiToken ≠ [] then env0.set (ascii "CLOUDFLARE_API_TOKEN") apiToken else env0
  let api2 := if apiKey ≠ [] ∧ email ≠ [] then New apiKey email else api1
  let env2 :=
    if apiKey ≠ [] ∧ email ≠ [] then
      (env1.set (ascii "CLOUDFLARE_API_KEY") apiKey).set (ascii "CLOUDFLARE_EMAIL") email
    else env1
  match api2 with
  | none => (Outcome.ret (some notInitialized), { c with env := env2 }, w)
  | some api =>
    let c1 := { c with env := env2, client := some api }
    let finish (accountID : GoString) (w : World σ) :
        Outcome (Option GoError) × CloudflareProvider × World σ :=
      (Outcome.ret none,
        { c1 with
          env := c1.env.set (ascii "CLOUDFLARE_DEFAULT_ACCOUNT_ID") accountID
          identifier := some (AccountIdentifier accountID) },
        w)
    if accountID = [] then
      match World.Accounts B api w with
      | (Except.error err, w1) => (Outcome.ret (some (GoError.api err)), c1, w1)
      | (Except.ok [], w1) => (Outcome.crash "index out of range [0] with length 0", c1, w1)
      | (Except.ok (account :: _), w1) => finish account.ID w1
    else finish accountID w

/-- Method `CloudflareProvider.Init`. `getenv` is `os.Getenv` (the empty
string for an unset variable). Returns the error (`none` is nil) or the
panic, the provider and the world after the call. -/
def CloudflareProvider.Init {σ : Type} (B : Backend σ) (getenv : GoString → GoString)
    (c : CloudflareProvider) (_key : GoString) (args : GoMap Any) (w : World σ) :
    Outcome (Option GoError) × CloudflareProvider × World σ :=
  let accountID := getenv (ascii "CLOUDFLARE_DEFAULT_ACCOUNT_ID")
  let apiToken := getenv (ascii "CLOUDFLARE_API_TOKEN")
  let apiKey := getenv (ascii "CLOUDFLARE_API_KEY")
  let email := getenv (ascii "CLOUDFLARE_EMAIL")
  match override args (ascii "apiToken") apiToken with
  | none => (Outcome.crash "interface conversion: the value is not a string", c, w)
  | some apiToken =>
    match override args (ascii "apiKey") apiKey with
    | none => (Outcome.crash "interface conversion: the value is not a string", c, w)
    | some apiKey =>
      match override args (ascii "email") email with
      | none => (Outcome.crash "interface conversion: the value is not a string", c, w)
      | some email => Init.resolve B c accountID apiToken apiKey email w

/-- Method `CloudflareProvider.Env`. -/
def CloudflareProvider.Env (c : CloudflareProvider) : GoMap GoString × Option GoError :=
  (c.env, none)

/-- Method `CloudflareProvider.AsHome`. A nil `c.client` or `c.identifier` is
dereferenced by the client library, which panics. The `Home` returned next
to a nil error is the receiver, returned here in second place. -/
def CloudflareProvider.AsHome {σ : Type} (B : Backend σ) (c : CloudflareProvider)
    (_app _stage : GoString) (w : World σ) :
    Outcome (Option GoError) × CloudflareProvider × World σ :=
  match c.client, c.identifier with
  | none, _ => (Outcome.crash "invalid memory address or nil pointer dereference", c, w)
  | some _, none => (Outcome.crash "invalid memory address or nil pointer dereference", c, w)
  | some api, some rc =>
    match World.ListR2Buckets B api rc (ascii "sst-state") w with
    | (Except.error err, w1) => (Outcome.ret (some (GoError.api err)), c, w1)
    | (Except.ok buckets, w1) =>
      let c1 := buckets.foldl
        (fun (c : CloudflareProvider) bucket =>
          if bucket.Name = ascii "sst-state" then
            { c with bootstrap := some { State := bucket.Name } }
          else c)
        c
      match c1.bootstrap with
      | none =>
        match World.CreateR2Bucket B api rc (ascii "sst-state") w1 with
        | (Except.error err, w2) => (Outcome.ret (some (GoError.api err)), c1, w2)
        | (Except.ok _, w2) =>
          (Outcome.ret none, { c1 with bootstrap := some { State := ascii "sst-state" } }, w2)
      | some _ => (Outcome.ret none, c1, w1)

/-- Method `CloudflareProvider.putData`. `data` is the `io.Reader` passed in,
given by the bytes it yields (`none` is the nil reader). The request path
dereferences `c.identifier` and `c.bootstrap` before the call is made. -/
def CloudflareProvider.putData {σ : Type} (B : Backend σ) (c : CloudflareProvider)
    (kind app stage : GoString) (data : Option Bytes) (w : World σ) :
    Outcome (Option GoError) × World σ :=
  let path := Join [kind, app, stage]
  match c.identifier with
  | none => (Outcome.crash "invalid memory address or nil pointer dereference", w)
  | some rc =>
    match c.bootstrap with
    | none => (Outcome.crash "invalid memory address or nil pointer dereference", w)
    | some b =>
      match c.client with
      | none => (Outcome.crash "invalid memory address or nil pointer dereference", w)
      | some api =>
        match World.makeRequestContext B api Method.PUT
            (ascii "/accounts/" ++ rc.Identifier ++ ascii "/r2/buckets/" ++ b.State
              ++ ascii "/objects/" ++ path) data w with
        | (Except.error err, w1) => (Outcome.ret (some (GoError.api err)), w1)
        | (Except.ok _, w1) => (Outcome.ret none, w1)

/-- Method `CloudflareProvider.getData`. The reader returned is given by the
bytes it yields (`none` is the nil reader). -/
def CloudflareProvider.getData {σ : Type} (B : Backend σ) (c : CloudflareProvider)
    (kind app stage : GoString) (w : World σ) :
    Outcome (Option Bytes × Option GoError) × World σ :=
  let path := Join [kind, app, stage]
  match c.identifier with
  | none => (Outcome.crash "invalid memory address or nil pointer dereference", w)
  | some rc =>
    match c.bootstrap with
    | none => (Outcome.crash "invalid memory address or nil pointer dereference", w)
    | some b =>
      match c.client with
      | none => (Outcome.crash "invalid memory address or nil pointer dereference", w)
      | some api =>
        match World.makeRequestContext B api Method.GET
            (ascii "/accounts/" ++ rc.Identifier ++ ascii "/r2/buckets/" ++ b.State
              ++ ascii "/objects/" ++ path) none w with
        | (Except.error err, w1) =>
          if err.Error = ascii "The specified key does not exist. (10007)" then
            (Outcome.ret (none, none), w1)
          else (Outcome.ret (none, some (GoError.api err)), w1)
        | (Except.ok data, w1) => (Outcome.ret (some data, none), w1)

/-- Method `CloudflareProvider.removeData`. -/
def CloudflareProvider.removeData {σ : Type} (B : Backend σ) (c : CloudflareProvider)
    (kind app stage : GoString) (w : World σ) : Outcome (Option GoError) × World σ :=
  let path := Join [kind, app, stage]
  match c.identifier with
  | none => (Outcome.crash "invalid memory address or nil pointer dereference", w)
  | some rc =>
    match c.bootstrap with
    | none => (Outcome.crash "invalid memory address or nil pointer dereference", w)
    | some b =>
      match c.client with
      | none => (Outcome.crash "invalid memory address or nil pointer dereference", w)
      | some api =>
        match World.makeRequestContext B api Method.DELETE
            (ascii "/accounts/" ++ rc.Identifier ++ ascii "/r2/buckets/" ++ b.State
              ++ ascii "/objects/" ++ path) none w with
        | (Except.error err, w1) => (Outcome.ret (some (GoError.api err)), w1)
        | (Except.ok _, w1) => (Outcome.ret none, w1)

/-- Function `io.ReadAll` on a `*bytes.Reader`: all the bytes, no error. -/
def ReadAll (r : Bytes) : Bytes × Option GoError := (r, none)

/-- Method `CloudflareProvider.setPassphrase`. -/
def CloudflareProvider.setPassphrase {σ : Type} (B : Backend σ) (c : CloudflareProvider)
    (app stage : GoString) (passphrase : GoString) (w : World σ) :
    Outcome (Option GoError) × World σ :=
  c.putData B (ascii "passphrase") app stage (some passphrase) w

/-- Method `CloudflareProvider.getPassphrase`. -/
def CloudflareProvider.getPassphrase {σ : Type} (B : Backend σ) (c : CloudflareProvider)
    (app stage : GoString) (w : World σ) : Outcome (GoString × Option GoError) × World σ :=
  match c.getData B (ascii "passphrase") app stage w with
  | (Outcome.crash msg, w1) => (Outcome.crash msg, w1)
  | (Outcome.ret (_, some err), w1) => (Outcome.ret ([], some err), w1)
  | (Outcome.ret (none, none), w1) => (Outcome.ret ([], none), w1)
  | (Outcome.ret (some data, none), w1) =>
    match ReadAll data with
    | (_, some err) => (Outcome.ret ([], some err), w1)
    | (read, none) => (Outcome.ret (read, none), w1)

/-! ## A reference backend

An account held in memory: its accounts, its buckets and the objects stored
under each request path. It gives the concrete inputs at which the theorems
below are instantiated. -/

/-- State of the in-memory account. -/
structure Mem where
  accounts : List Account
  buckets : List GoString
  objects : List (GoString × Bytes)
deriving DecidableEq, Repr

/-- The in-memory backend: listing returns the buckets whose name contains the
filter, creation adds a bucket, a PUT stores the body under the path, a GET
answers with the body stored there or with the object-not-found error, a
DELETE drops the object. -/
def memBackend : Backend Mem where
  Accounts := fun _ m => (Except.ok m.accounts, m)
  ListR2Buckets := fun _ _ name m =>
    (Except.ok ((m.buckets.filter (fun b => decide (name <:+: b))).map R2Bucket.mk), m)
  CreateR2Bucket := fun _ _ name m =>
    (Except.ok { Name := name }, { m with buckets := m.buckets ++ [name] })
  makeRequestContext := fun _ method path body m =>
    match method with
    | Method.PUT =>
      (Except.ok [],
        { m with objects := (path, body.getD []) :: m.objects.filter (fun o => o.1 ≠ path) })
    | Method.GET =>
      match m.objects.lookup path with
      | some data => (Except.ok data, m)
      | none => (Except.error { Error := ascii "The specified key does not exist. (10007)" }, m)
    | Method.DELETE =>
      (Except.ok [], { m with objects := m.objects.filter (fun o => o.1 ≠ path) })

/-- An empty account with id `acc`. -/
def emptyMem : Mem := { accounts := [{ ID := ascii "acc" }], buckets := [], objects := [] }

/-- The environment in which no variable is set. -/
def noEnv : GoString → GoString := fun _ => []

/-- An environment given by the list of its variables. -/
def envOf (vars : List (GoString × GoString)) : GoString → GoString :=
  fun k => (vars.lookup k).getD []

/-! ## Definitions used in the statements -/

/-- The client `Init` builds from the merged credentials: the key and email
client when the pair is complete, the token client otherwise. -/
def clientFor (apiToken apiKey email : GoString) : Option API :=
  if apiKey ≠ [] ∧ email ≠ [] then New apiKey email
  else if apiToken ≠ [] then NewWithAPIToken apiToken
  else none

/-- The environment map `Init` has assembled before account selection. -/
def credentialEnv (apiToken apiKey email : GoString) : GoMap GoString :=
  let env1 : GoMap GoString :=
    if apiToken ≠ [] then GoMap.set [] (ascii "CLOUDFLARE_API_TOKEN") apiToken else []
  if apiKey ≠ [] ∧ email ≠ [] then
    (env1.set (ascii "CLOUDFLARE_API_KEY") apiKey).set (ascii "CLOUDFLARE_EMAIL") email
  else env1

/-- The merge rule in the words of the specification: the override value
wins if present and non-empty, otherwise the ambient value. -/
def specMerge (args : GoMap Any) (k : GoString) (ambient : GoString) : GoString :=
  match args.lookup k with
  | some (Any.str s) => if s ≠ [] then s else ambient
  | _ => ambient

/-- The merge rule of `Init`: the override value wins if the key is present,
whether its string is empty or not, otherwise the ambient value. -/
def presentMerge (args : GoMap Any) (k : GoString) (ambient : GoString) : GoString :=
  match args.lookup k with
  | some (Any.str s) => s
  | _ => ambient

/-- A provider in the state `Bootstrapped`: token client, account `acc`,
bootstrap record naming `sst-state`. -/
def homeProvider : CloudflareProvider :=
  { client := NewWithAPIToken (ascii "T")
    identifier := some (AccountIdentifier (ascii "acc"))
    env := []
    bootstrap := some { State := ascii "sst-state" } }

/-- The provider `Init` leaves behind on the empty in-memory account, with a
token in the environment: state `Authenticated`, no bootstrap record yet. -/
def authenticatedProvider : CloudflareProvider :=
  (CloudflareProvider.zero.Init memBackend (envOf [(ascii "CLOUDFLARE_API_TOKEN", ascii "T")])
    [] [] { remote := emptyMem, log := [] }).2.1

/-- Whether a call is a create-bucket request. -/
def Request.isCreate : Request → Bool
  | Request.createR2Bucket _ _ => true
  | _ => false

/-- In the remote state `s`, every successful listing of the account `rc`
filtered by `name` shows a bucket named `name`. -/
def Backend.listsBucket {σ : Type} (B : Backend σ) (rc : ResourceContainer) (name : GoString)
    (s : σ) : Prop :=
  ∀ api bs s', B.ListR2Buckets api rc name s = (Except.ok bs, s') → ∃ b ∈ bs, b.Name = name

/-- A path component that `Clean` copies as it is: non-empty, without a
separator, and neither `.` nor `..`. -/
abbrev plain (e : GoString) : Prop :=
  e ≠ [] ∧ Separator ∉ e ∧ e ≠ [dot] ∧ e ≠ [dot, dot]

/-! ## Credential resolution -/

/-- On a map whose values are strings, each override statement yields a value. -/
theorem override_of_strings (args : GoMap Any)
    (hargs : ∀ k v, (k, v) ∈ args → ∃ s, v = Any.str s) (k ambient : GoString) :
    ∃ s, override args k ambient = some s := by
  unfold override Any.index
  cases hl : args.lookup k with
  | none => exact ⟨ambient, rfl⟩
  | some v =>
    obtain ⟨l₁, l₂, hsplit, _⟩ := List.lookup_eq_some_iff.mp hl
    obtain ⟨s, hs⟩ := hargs k v (by rw [hsplit]; simp)
    subst hs
    exact ⟨s, rfl⟩

/-- When the three overrides yield values, `Init` continues with them and with
the ambient account id. -/
theorem Init_eq_resolve {σ : Type} (B : Backend σ) (getenv : GoString → GoString)
    (c : CloudflareProvider) (key : GoString) (args : GoMap Any) (w : World σ)
    (apiToken apiKey email : GoString)
    (h1 : override args (ascii "apiToken") (getenv (ascii "CLOUDFLARE_API_TOKEN")) = some apiToken)
    (h2 : override args (ascii "apiKey") (getenv (ascii "CLOUDFLARE_API_KEY")) = some apiKey)
    (h3 : override args (ascii "email") (getenv (ascii "CLOUDFLARE_EMAIL")) = some email) :
    c.Init B getenv key args w =
      Init.resolve B c (getenv (ascii "CLOUDFLARE_DEFAULT_ACCOUNT_ID")) apiToken apiKey email w := by
  simp only [CloudflareProvider.Init, h1, h2, h3]

/-- Without a token and without a complete key and email pair, `Init` stops
at the configuration error: the environment map is empty, nothing else of the
provider changes and no call is issued. -/
theorem resolve_incomplete {σ : Type} (B : Backend σ) (c : CloudflareProvider)
    (accountID apiToken apiKey email : GoString) (w : World σ)
    (h : apiToken = [] ∧ (apiKey = [] ∨ email = [])) :
    Init.resolve B c accountID apiToken apiKey email w =
      (Outcome.ret (some notInitialized), { c with env := [] }, w) := by
  obtain ⟨ht, hk⟩ := h
  have hk2 : ¬ (apiKey ≠ [] ∧ email ≠ []) := by
    rintro ⟨h1, h2⟩
    rcases hk with hk | hk
    · exact h1 hk
    · exact h2 hk
  simp only [Init.resolve, ht, ne_eq, not_true_eq_false, if_false, hk2]

/-- With a token or a complete pair, a client is built. -/
theorem clientFor_isSome (apiToken apiKey email : GoString)
    (h : apiToken ≠ [] ∨ (apiKey ≠ [] ∧ email ≠ [])) :
    ∃ api, clientFor apiToken apiKey email = some api := by
  unfold clientFor
  by_cases hp : apiKey ≠ [] ∧ email ≠ []
  · rw [if_pos hp]
    unfold New
    rw [if_neg (by rintro (h1 | h1); exact hp.1 h1; exact hp.2 h1)]
    exact ⟨_, rfl⟩
  · rw [if_neg hp]
    have ht : apiToken ≠ [] := by
      rcases h with h | h
      · exact h
      · exact absurd h hp
    rw [if_pos ht]
    unfold NewWithAPIToken
    rw [if_neg ht]
    exact ⟨_, rfl⟩

/-- With a client built, `Init` goes on to account selection. -/
theorem resolve_client {σ : Type} (B : Backend σ) (c : CloudflareProvider)
    (accountID apiToken apiKey email : GoString) (w : World σ) (api : API)
    (h : clientFor apiToken apiKey email = some api) :
    Init.resolve B c accountID apiToken apiKey email w =
      if accountID = [] then
        match World.Accounts B api w with
        | (Except.error err, w1) =>
          (Outcome.ret (some (GoError.api err)),
            { c with env := credentialEnv apiToken apiKey email, client := some api }, w1)
        | (Except.ok [], w1) =>
          (Outcome.crash "index out of range [0] with length 0",
            { c with env := credentialEnv apiToken apiKey email, client := some api }, w1)
        | (Except.ok (account :: _), w1) =>
          (Outcome.ret none,
            { c with
              env := (credentialEnv apiToken apiKey email).set
                (ascii "CLOUDFLARE_DEFAULT_ACCOUNT_ID") account.ID
              client := some api
              identifier := some (AccountIdentifier account.ID) }, w1)
      else
        (Outcome.ret none,
          { c with
            env := (credentialEnv apiToken apiKey email).set
              (ascii "CLOUDFLARE_DEFAULT_ACCOUNT_ID") accountID
            client := some api
            identifier := some (AccountIdentifier accountID) }, w) := by
  have hapi : (if apiKey ≠ [] ∧ email ≠ [] then New apiKey email
      else (if apiToken ≠ [] then NewWithAPIToken apiToken else none)) = some api := h
  simp only [Init.resolve, hapi, credentialEnv]

/-- Looking a key up in a map from which another key was filtered out. -/
theorem GoMap.lookup_filter_ne {β : Type} (m : GoMap β) (k k' : GoString) (hk : k' ≠ k) :
    (m.filter (fun e => e.1 ≠ k)).lookup k' = m.lookup k' := by
  induction m with
  | nil => rfl
  | cons e m ih =>
    obtain ⟨a, b⟩ := e
    by_cases ha : a = k
    · subst ha
      have hbeq : (k' == a) = false := by simpa using hk
      simp only [List.filter_cons, ne_eq, not_true_eq_false, decide_False, Bool.false_eq_true,
        if_false, List.lookup_cons, hbeq]
      exact ih
    · simp only [List.filter_cons, ne_eq, ha, not_false_eq_true, decide_True, if_true,
        List.lookup_cons]
      rw [ih]

/-- Looking a key up after an assignment. -/
theorem GoMap.lookup_set {β : Type} (m : GoMap β) (k : GoString) (v : β) (k' : GoString) :
    (m.set k v).lookup k' = if k' = k then some v else m.lookup k' := by
  unfold GoMap.set
  by_cases hk : k' = k
  · subst hk
    simp
  · have hbeq : (k' == k) = false := by simpa using hk
    rw [List.lookup_cons, hbeq, if_neg hk]
    exact GoMap.lookup_filter_ne m k k' hk

/-- An assignment keeps the keys of a map distinct. -/
theorem GoMap.nodup_set {β : Type} (m : GoMap β) (k : GoString) (v : β)
    (h : (m.map Prod.fst).Nodup) : ((m.set k v).map Prod.fst).Nodup := by
  unfold GoMap.set
  rw [List.map_cons, List.nodup_cons]
  constructor
  · simp [List.mem_map, List.mem_filter]
  · exact h.sublist ((List.filter_sublist m).map Prod.fst)

/-- C1. For every environment and every override map whose values are strings,
`Init` returns the "Cloudflare API not initialized" error exactly when the
merged token is empty and the merged key or the merged email is empty; it
then issues no call (the world, log included, is unchanged) and leaves the
client field as it was. -/
theorem init_not_initialized_iff {σ : Type} (B : Backend σ) (getenv : GoString → GoString)
    (c : CloudflareProvider) (key : GoString) (args : GoMap Any) (w : World σ)
    (hargs : ∀ k v, (k, v) ∈ args → ∃ s, v = Any.str s) :
    ∃ apiToken apiKey email,
      override args (ascii "apiToken") (getenv (ascii "CLOUDFLARE_API_TOKEN")) = some apiToken ∧
      override args (ascii "apiKey") (getenv (ascii "CLOUDFLARE_API_KEY")) = some apiKey ∧
      override args (ascii "email") (getenv (ascii "CLOUDFLARE_EMAIL")) = some email ∧
      ((c.Init B getenv key args w).1 = Outcome.ret (some notInitialized) ↔
        apiToken = [] ∧ (apiKey = [] ∨ email = [])) ∧
      (apiToken = [] ∧ (apiKey = [] ∨ email = []) →
        (c.Init B getenv key args w).2.2 = w ∧
        (c.Init B getenv key args w).2.1.client = c.client) := by
  obtain ⟨apiToken, h1⟩ :=
    override_of_strings args hargs (ascii "apiToken") (getenv (ascii "CLOUDFLARE_API_TOKEN"))
  obtain ⟨apiKey, h2⟩ :=
    override_of_strings args hargs (ascii "apiKey") (getenv (ascii "CLOUDFLARE_API_KEY"))
  obtain ⟨email, h3⟩ :=
    override_of_strings args hargs (ascii "email") (getenv (ascii "CLOUDFLARE_EMAIL"))
  refine ⟨apiToken, apiKey, email, h1, h2, h3, ?_, ?_⟩
  · rw [Init_eq_resolve B getenv c key args w apiToken apiKey email h1 h2 h3]
    constructor
    · intro hret
      by_contra hno
      have hvalid : apiToken ≠ [] ∨ (apiKey ≠ [] ∧ email ≠ []) := by
        by_cases ht : apiToken = []
        · right
          constructor
          · intro hk
            exact hno ⟨ht, Or.inl hk⟩
          · intro he
            exact hno ⟨ht, Or.inr he⟩
        · exact Or.inl ht
      obtain ⟨api, hapi⟩ := clientFor_isSome apiToken apiKey email hvalid
      rw [resolve_client B c _ apiToken apiKey email w api hapi] at hret
      revert hret
      split
      · split <;> simp [notInitialized, NewReadableError]
      · simp
    · intro h
      rw [resolve_incomplete B c _ apiToken apiKey email w h]
  · intro h
    rw [Init_eq_resolve B getenv c key args w apiToken apiKey email h1 h2 h3,
      resolve_incomplete B c _ apiToken apiKey email w h]
    exact ⟨rfl, rfl⟩

/-- Instance of C1: only a key is supplied, so `Init` returns the
configuration error and issues no call. -/
theorem init_not_initialized_iff_witness :
    (∀ k v, (k, v) ∈ [(ascii "apiKey", Any.str (ascii "k"))] → ∃ s, v = Any.str s) ∧
    (CloudflareProvider.zero.Init memBackend noEnv [] [(ascii "apiKey", Any.str (ascii "k"))]
        { remote := emptyMem, log := [] }).1 = Outcome.ret (some notInitialized) := by
  have hargs : ∀ k v, (k, v) ∈ [(ascii "apiKey", Any.str (ascii "k"))] → ∃ s, v = Any.str s := by
    intro k v h
    simp only [List.mem_singleton, Prod.mk.injEq] at h
    exact ⟨ascii "k", h.2⟩
  refine ⟨hargs, ?_⟩
  obtain ⟨apiToken, apiKey, email, h1, h2, h3, hiff, _⟩ :=
    init_not_initialized_iff memBackend noEnv CloudflareProvider.zero []
      [(ascii "apiKey", Any.str (ascii "k"))] { remote := emptyMem, log := [] } hargs
  have e1 : apiToken = [] := by
    have : override [(ascii "apiKey", Any.str (ascii "k"))] (ascii "apiToken")
        (noEnv (ascii "CLOUDFLARE_API_TOKEN")) = some [] := by decide
    rw [this] at h1
    exact (Option.some.inj h1).symm
  have e3 : email = [] := by
    have : override [(ascii "apiKey", Any.str (ascii "k"))] (ascii "email")
        (noEnv (ascii "CLOUDFLARE_EMAIL")) = some [] := by decide
    rw [this] at h3
    exact (Option.some.inj h3).symm
  exact hiff.mpr ⟨e1, Or.inr e3⟩

/-- On a map whose values are strings, an override statement computes `presentMerge`. -/
theorem override_eq_presentMerge (args : GoMap Any)
    (hargs : ∀ k v, (k, v) ∈ args → ∃ s, v = Any.str s) (k ambient : GoString) :
    override args k ambient = some (presentMerge args k ambient) := by
  unfold override Any.index presentMerge
  cases hl : args.lookup k with
  | none => rfl
  | some v =>
    obtain ⟨l₁, l₂, hsplit, _⟩ := List.lookup_eq_some_iff.mp hl
    obtain ⟨s, hs⟩ := hargs k v (by rw [hsplit]; simp)
    subst hs
    rfl

/-- C5, the claim fails: with the ambient token `T` and the override
`apiToken` present but empty, the specification's rule merges to `T`, with
which `Init` would succeed, while `Init` uses the empty override and returns
the configuration error. -/
theorem init_merge_counterexample :
    CloudflareProvider.zero.Init memBackend
        (envOf [(ascii "CLOUDFLARE_API_TOKEN", ascii "T")]) []
        [(ascii "apiToken", Any.str [])] { remote := emptyMem, log := [] } ≠
      Init.resolve memBackend CloudflareProvider.zero
        (envOf [(ascii "CLOUDFLARE_API_TOKEN", ascii "T")] (ascii "CLOUDFLARE_DEFAULT_ACCOUNT_ID"))
        (specMerge [(ascii "apiToken", Any.str [])] (ascii "apiToken")
          (envOf [(ascii "CLOUDFLARE_API_TOKEN", ascii "T")] (ascii "CLOUDFLARE_API_TOKEN")))
        (specMerge [(ascii "apiToken", Any.str [])] (ascii "apiKey")
          (envOf [(ascii "CLOUDFLARE_API_TOKEN", ascii "T")] (ascii "CLOUDFLARE_API_KEY")))
        (specMerge [(ascii "apiToken", Any.str [])] (ascii "email")
          (envOf [(ascii "CLOUDFLARE_API_TOKEN", ascii "T")] (ascii "CLOUDFLARE_EMAIL")))
        { remote := emptyMem, log := [] } := by
  intro h
  have h1 := congrArg Prod.fst h
  revert h1
  decide

/-- C5, amended. For every override map whose values are strings, `Init` runs
on these four values: for the token, the key and the email, the override
value when the key is present in the map (an empty string included) and the
ambient value otherwise; for the account id, the ambient value of
`CLOUDFLARE_DEFAULT_ACCOUNT_ID`, whatever the map holds. -/
theorem init_merge_present {σ : Type} (B : Backend σ) (getenv : GoString → GoString)
    (c : CloudflareProvider) (key : GoString) (args : GoMap Any) (w : World σ)
    (hargs : ∀ k v, (k, v) ∈ args → ∃ s, v = Any.str s) :
    c.Init B getenv key args w =
      Init.resolve B c (getenv (ascii "CLOUDFLARE_DEFAULT_ACCOUNT_ID"))
        (presentMerge args (ascii "apiToken") (getenv (ascii "CLOUDFLARE_API_TOKEN")))
        (presentMerge args (ascii "apiKey") (getenv (ascii "CLOUDFLARE_API_KEY")))
        (presentMerge args (ascii "email") (getenv (ascii "CLOUDFLARE_EMAIL"))) w :=
  Init_eq_resolve B getenv c key args w _ _ _
    (override_eq_presentMerge args hargs _ _)
    (override_eq_presentMerge args hargs _ _)
    (override_eq_presentMerge args hargs _ _)

/-- Instance of C5 as amended: an empty `apiToken` override hides the ambient
token, and an `accountId` entry of the map is not read. -/
theorem init_merge_present_witness :
    (∀ k v, (k, v) ∈ [(ascii "apiToken", Any.str []), (ascii "accountId", Any.str (ascii "B"))] →
      ∃ s, v = Any.str s) ∧
    CloudflareProvider.zero.Init memBackend
        (envOf [(ascii "CLOUDFLARE_API_TOKEN", ascii "T"),
          (ascii "CLOUDFLARE_DEFAULT_ACCOUNT_ID", ascii "A")]) []
        [(ascii "apiToken", Any.str []), (ascii "accountId", Any.str (ascii "B"))]
        { remote := emptyMem, log := [] } =
      Init.resolve memBackend CloudflareProvider.zero (ascii "A") [] [] []
        { remote := emptyMem, log := [] } := by
  have hargs : ∀ k v,
      (k, v) ∈ [(ascii "apiToken", Any.str []), (ascii "accountId", Any.str (ascii "B"))] →
      ∃ s, v = Any.str s := by
    intro k v h
    simp only [List.mem_cons, Prod.mk.injEq, List.mem_singleton, List.not_mem_nil, or_false] at h
    rcases h with h | h
    · exact ⟨_, h.2⟩
    · exact ⟨_, h.2⟩
  exact ⟨hargs, init_merge_present memBackend _ CloudflareProvider.zero [] _ _ hargs⟩

/-- C10, the claim fails: with the override `apiToken` holding an integer,
`Init` panics at the type assertion and returns no error. -/
theorem init_non_string_counterexample :
    (CloudflareProvider.zero.Init memBackend
        (envOf [(ascii "CLOUDFLARE_API_TOKEN", ascii "T")]) []
        [(ascii "apiToken", Any.int 5)] { remote := emptyMem, log := [] }).1 =
      Outcome.crash "interface conversion: the value is not a string" ∧
    (CloudflareProvider.zero.Init memBackend
        (envOf [(ascii "CLOUDFLARE_API_TOKEN", ascii "T")]) []
        [(ascii "apiToken", Any.int 5)] { remote := emptyMem, log := [] }).1 ≠
      Outcome.ret (some notInitialized) := by
  decide

/-- C10, amended. For every override map in which one of the keys `apiToken`,
`apiKey`, `email` holds a value that is neither nil nor a string, `Init` does
not fall back to the ambient value and returns no error: it panics at a type
assertion, before the provider is touched and before any call is issued. -/
theorem init_non_string_panics {σ : Type} (B : Backend σ) (getenv : GoString → GoString)
    (c : CloudflareProvider) (key : GoString) (args : GoMap Any) (w : World σ) (k : GoString)
    (hk : k = ascii "apiToken" ∨ k = ascii "apiKey" ∨ k = ascii "email")
    (hnil : Any.index args k ≠ Any.nil) (hstr : ∀ s, Any.index args k ≠ Any.str s) :
    c.Init B getenv key args w =
      (Outcome.crash "interface conversion: the value is not a string", c, w) := by
  have hnone : ∀ ambient, override args k ambient = none := by
    intro ambient
    unfold override
    split
    · next h => exact absurd h hnil
    · next s h => exact absurd h (hstr s)
    · rfl
  unfold CloudflareProvider.Init
  rcases hk with hk | hk | hk
  · subst hk
    simp only [hnone]
  · subst hk
    simp only [hnone]
    split <;> rfl
  · subst hk
    simp only [hnone]
    split
    · rfl
    · split <;> rfl

/-- Instance of C10 as amended: a boolean under `email`. -/
theorem init_non_string_panics_witness :
    (ascii "email" = ascii "apiToken" ∨ ascii "email" = ascii "apiKey" ∨
      ascii "email" = ascii "email") ∧
    Any.index [(ascii "email", Any.bool true)] (ascii "email") ≠ Any.nil ∧
    (∀ s, Any.index [(ascii "email", Any.bool true)] (ascii "email") ≠ Any.str s) ∧
    CloudflareProvider.zero.Init memBackend noEnv [] [(ascii "email", Any.bool true)]
        { remote := emptyMem, log := [] } =
      (Outcome.crash "interface conversion: the value is not a string",
        CloudflareProvider.zero, { remote := emptyMem, log := [] }) := by
  have h1 : ascii "email" = ascii "apiToken" ∨ ascii "email" = ascii "apiKey" ∨
      ascii "email" = ascii "email" := Or.inr (Or.inr rfl)
  have h2 : Any.index [(ascii "email", Any.bool true)] (ascii "email") ≠ Any.nil := by decide
  have h3 : ∀ s, Any.index [(ascii "email", Any.bool true)] (ascii "email") ≠ Any.str s := by
    intro s
    have : Any.index [(ascii "email", Any.bool true)] (ascii "email") = Any.bool true := by decide
    rw [this]
    exact fun h => Any.noConfusion h
  exact ⟨h1, h2, h3, init_non_string_panics memBackend noEnv _ [] _ _ _ h1 h2 h3⟩

/-! ## Account selection and the resolved environment -/

/-- The entries of the map `Init` assembles from the credentials. -/
theorem lookup_credentialEnv (apiToken apiKey email k : GoString) :
    (credentialEnv apiToken apiKey email).lookup k =
      if k = ascii "CLOUDFLARE_API_TOKEN" then (if apiToken ≠ [] then some apiToken else none)
      else if k = ascii "CLOUDFLARE_API_KEY" then
        (if apiKey ≠ [] ∧ email ≠ [] then some apiKey else none)
      else if k = ascii "CLOUDFLARE_EMAIL" then
        (if apiKey ≠ [] ∧ email ≠ [] then some email else none)
      else none := by
  have hTK : ascii "CLOUDFLARE_API_TOKEN" ≠ ascii "CLOUDFLARE_API_KEY" := by decide
  have hTE : ascii "CLOUDFLARE_API_TOKEN" ≠ ascii "CLOUDFLARE_EMAIL" := by decide
  have hKE : ascii "CLOUDFLARE_API_KEY" ≠ ascii "CLOUDFLARE_EMAIL" := by decide
  unfold credentialEnv
  by_cases ht : apiToken = [] <;> by_cases hp : apiKey ≠ [] ∧ email ≠ []
  all_goals
    simp only [ht, hp, ne_eq, not_true_eq_false, not_false_eq_true, if_true, if_false,
      GoMap.lookup_set, List.lookup_nil, and_self]
    by_cases h1 : k = ascii "CLOUDFLARE_API_TOKEN"
    · subst h1
      simp [hTK, hTE]
    · by_cases h2 : k = ascii "CLOUDFLARE_API_KEY"
      · subst h2
        simp [hKE, h1]
      · by_cases h3 : k = ascii "CLOUDFLARE_EMAIL"
        · subst h3
          simp [h1, h2]
        · simp [h1, h2, h3]

/-- The keys of the map `Init` assembles from the credentials are distinct. -/
theorem nodup_credentialEnv (apiToken apiKey email : GoString) :
    ((credentialEnv apiToken apiKey email).map Prod.fst).Nodup := by
  unfold credentialEnv
  have h0 : (([] : GoMap GoString).map Prod.fst).Nodup := List.nodup_nil
  split <;> split
  all_goals first
    | exact GoMap.nodup_set _ _ _ (GoMap.nodup_set _ _ _ (GoMap.nodup_set _ _ _ h0))
    | exact GoMap.nodup_set _ _ _ (GoMap.nodup_set _ _ _ h0)
    | exact GoMap.nodup_set _ _ _ h0
    | exact h0

/-- C7. For every credential input whose merged token is non-empty, or whose
merged key and email are both non-empty, and for which the account resolves to
`id` (the configured account id, or the first entry of the account list),
`Init` succeeds and `Env` then returns, with no error, the map that binds
`CLOUDFLARE_DEFAULT_ACCOUNT_ID` to `id`, `CLOUDFLARE_API_TOKEN` to the token
when the token is non-empty, `CLOUDFLARE_API_KEY` and `CLOUDFLARE_EMAIL` to the
key and the email when both are non-empty, and no other key. -/
theorem init_env_exact {σ : Type} (B : Backend σ) (getenv : GoString → GoString)
    (c : CloudflareProvider) (key : GoString) (args : GoMap Any) (w : World σ)
    (apiToken apiKey email id : GoString)
    (h1 : override args (ascii "apiToken") (getenv (ascii "CLOUDFLARE_API_TOKEN")) = some apiToken)
    (h2 : override args (ascii "apiKey") (getenv (ascii "CLOUDFLARE_API_KEY")) = some apiKey)
    (h3 : override args (ascii "email") (getenv (ascii "CLOUDFLARE_EMAIL")) = some email)
    (hvalid : apiToken ≠ [] ∨ (apiKey ≠ [] ∧ email ≠ []))
    (hacc : (getenv (ascii "CLOUDFLARE_DEFAULT_ACCOUNT_ID") ≠ [] ∧
          id = getenv (ascii "CLOUDFLARE_DEFAULT_ACCOUNT_ID")) ∨
        (getenv (ascii "CLOUDFLARE_DEFAULT_ACCOUNT_ID") = [] ∧
          ∀ api, clientFor apiToken apiKey email = some api →
            ∃ rest, (B.Accounts api w.remote).1 = Except.ok ({ ID := id } :: rest))) :
    (c.Init B getenv key args w).1 = Outcome.ret none ∧
    (c.Init B getenv key args w).2.1.Env.2 = none ∧
    (∀ k, (c.Init B getenv key args w).2.1.Env.1.lookup k =
      if k = ascii "CLOUDFLARE_DEFAULT_ACCOUNT_ID" then some id
      else if k = ascii "CLOUDFLARE_API_TOKEN" then (if apiToken ≠ [] then some apiToken else none)
      else if k = ascii "CLOUDFLARE_API_KEY" then
        (if apiKey ≠ [] ∧ email ≠ [] then some apiKey else none)
      else if k = ascii "CLOUDFLARE_EMAIL" then
        (if apiKey ≠ [] ∧ email ≠ [] then some email else none)
      else none) ∧
    ((c.Init B getenv key args w).2.1.Env.1.map Prod.fst).Nodup := by
  obtain ⟨api, hapi⟩ := clientFor_isSome apiToken apiKey email hvalid
  have hres : c.Init B getenv key args w =
      (Outcome.ret none,
        { c with
          env := (credentialEnv apiToken apiKey email).set
            (ascii "CLOUDFLARE_DEFAULT_ACCOUNT_ID") id
          client := some api
          identifier := some (AccountIdentifier id) },
        (if getenv (ascii "CLOUDFLARE_DEFAULT_ACCOUNT_ID") = [] then (World.Accounts B api w).2
          else w)) := by
    rw [Init_eq_resolve B getenv c key args w apiToken apiKey email h1 h2 h3,
      resolve_client B c _ apiToken apiKey email w api hapi]
    rcases hacc with ⟨hne, hid⟩ | ⟨he, hlist⟩
    · rw [if_neg hne, if_neg hne, hid]
    · obtain ⟨rest, hrest⟩ := hlist api hapi
      rw [if_pos he, if_pos he]
      have hw : World.Accounts B api w =
          (Except.ok ({ ID := id } :: rest), (World.Accounts B api w).2) := by
        apply Prod.ext
        · exact hrest
        · rfl
      rw [hw]
  rw [hres]
  refine ⟨rfl, rfl, ?_, ?_⟩
  · intro k
    simp only [CloudflareProvider.Env, GoMap.lookup_set, lookup_credentialEnv]
  · exact GoMap.nodup_set _ _ _ (nodup_credentialEnv apiToken apiKey email)

/-- Instance of C7: a token in the environment, a key and an email in the
override map, no configured account: the first account listed is selected. -/
theorem init_env_exact_witness :
    (CloudflareProvider.zero.Init memBackend
        (envOf [(ascii "CLOUDFLARE_API_TOKEN", ascii "T")]) []
        [(ascii "apiKey", Any.str (ascii "K")), (ascii "email", Any.str (ascii "E"))]
        { remote := emptyMem, log := [] }).1 = Outcome.ret none ∧
    (CloudflareProvider.zero.Init memBackend
        (envOf [(ascii "CLOUDFLARE_API_TOKEN", ascii "T")]) []
        [(ascii "apiKey", Any.str (ascii "K")), (ascii "email", Any.str (ascii "E"))]
        { remote := emptyMem, log := [] }).2.1.Env.1.lookup (ascii "CLOUDFLARE_DEFAULT_ACCOUNT_ID")
      = some (ascii "acc") := by
  have h := init_env_exact memBackend (envOf [(ascii "CLOUDFLARE_API_TOKEN", ascii "T")])
    CloudflareProvider.zero []
    [(ascii "apiKey", Any.str (ascii "K")), (ascii "email", Any.str (ascii "E"))]
    { remote := emptyMem, log := [] } (ascii "T") (ascii "K") (ascii "E") (ascii "acc")
    (by decide) (by decide) (by decide) (Or.inl (by decide))
    (Or.inr ⟨by decide, fun api _ => ⟨[], rfl⟩⟩)
  refine ⟨h.1, ?_⟩
  rw [h.2.2.1 (ascii "CLOUDFLARE_DEFAULT_ACCOUNT_ID"), if_pos rfl]

/-- C6, the code fails the claim: with a valid token, no configured account id
and a list-accounts request that succeeds with an empty list, `Init` indexes
the first entry of the empty list and panics instead of returning an error. -/
theorem init_empty_account_list_panics :
    (CloudflareProvider.zero.Init memBackend
        (envOf [(ascii "CLOUDFLARE_API_TOKEN", ascii "T")]) [] []
        { remote := { accounts := [], buckets := [], objects := [] }, log := [] }).1 =
      Outcome.crash "index out of range [0] with length 0" := by
  decide

/-! ## The blob operations -/

/-- On a bootstrapped provider `getData` issues the GET request and maps its
response. -/
theorem getData_of_bootstrapped {σ : Type} (B : Backend σ) (c : CloudflareProvider)
    (kind app stage : GoString) (w : World σ) (api : API) (rc : ResourceContainer)
    (b : bootstrap) (hc : c.client = some api) (hi : c.identifier = some rc)
    (hb : c.bootstrap = some b) :
    c.getData B kind app stage w =
      match World.makeRequestContext B api Method.GET
          (ascii "/accounts/" ++ rc.Identifier ++ ascii "/r2/buckets/" ++ b.State
            ++ ascii "/objects/" ++ Join [kind, app, stage]) none w with
      | (Except.error err, w1) =>
        if err.Error = ascii "The specified key does not exist. (10007)" then
          (Outcome.ret (none, none), w1)
        else (Outcome.ret (none, some (GoError.api err)), w1)
      | (Except.ok data, w1) => (Outcome.ret (some data, none), w1) := by
  simp only [CloudflareProvider.getData, hc, hi, hb]

/-- On a bootstrapped provider `putData` leaves the world in which the PUT
request was issued. -/
theorem putData_world {σ : Type} (B : Backend σ) (c : CloudflareProvider)
    (kind app stage : GoString) (data : Option Bytes) (w : World σ) (api : API)
    (rc : ResourceContainer) (b : bootstrap) (hc : c.client = some api)
    (hi : c.identifier = some rc) (hb : c.bootstrap = some b) :
    (c.putData B kind app stage data w).2 =
      (World.makeRequestContext B api Method.PUT
        (ascii "/accounts/" ++ rc.Identifier ++ ascii "/r2/buckets/" ++ b.State
          ++ ascii "/objects/" ++ Join [kind, app, stage]) data w).2 := by
  simp only [CloudflareProvider.putData, hc, hi, hb]
  generalize World.makeRequestContext B api Method.PUT
    (ascii "/accounts/" ++ rc.Identifier ++ ascii "/r2/buckets/" ++ b.State
      ++ ascii "/objects/" ++ Join [kind, app, stage]) data w = r
  obtain ⟨r1, r2⟩ := r
  cases r1 <;> rfl

/-- C2. For every address on a bootstrapped provider, `getData` returns the
absent result (nil reader, nil error) when the request fails with an error
whose text is "The specified key does not exist. (10007)", returns that very
error (and a nil reader) when the request fails with any other error, and
returns a reader over exactly the response bytes, with a nil error, when the
request succeeds. -/
theorem getData_outcomes {σ : Type} (B : Backend σ) (c : CloudflareProvider)
    (kind app stage : GoString) (w : World σ) (api : API) (rc : ResourceContainer)
    (b : bootstrap) (hc : c.client = some api) (hi : c.identifier = some rc)
    (hb : c.bootstrap = some b) :
    (∀ e r,
      B.makeRequestContext api Method.GET
          (ascii "/accounts/" ++ rc.Identifier ++ ascii "/r2/buckets/" ++ b.State
            ++ ascii "/objects/" ++ Join [kind, app, stage]) none w.remote = (Except.error e, r) →
        (e.Error = ascii "The specified key does not exist. (10007)" →
          (c.getData B kind app stage w).1 = Outcome.ret (none, none)) ∧
        (e.Error ≠ ascii "The specified key does not exist. (10007)" →
          (c.getData B kind app stage w).1 = Outcome.ret (none, some (GoError.api e)))) ∧
    (∀ data r,
      B.makeRequestContext api Method.GET
          (ascii "/accounts/" ++ rc.Identifier ++ ascii "/r2/buckets/" ++ b.State
            ++ ascii "/objects/" ++ Join [kind, app, stage]) none w.remote = (Except.ok data, r) →
        (c.getData B kind app stage w).1 = Outcome.ret (some data, none)) := by
  rw [getData_of_bootstrapped B c kind app stage w api rc b hc hi hb]
  refine ⟨?_, ?_⟩
  · intro e r hreq
    constructor
    · intro hsig
      simp only [World.makeRequestContext, hreq, hsig, if_true]
    · intro hsig
      simp only [World.makeRequestContext, hreq, hsig, if_false]
  · intro data r hreq
    simp only [World.makeRequestContext, hreq]

/-- Instance of C2: on the empty in-memory account the object is not found,
and `getData` returns the absent result. -/
theorem getData_outcomes_witness :
    homeProvider.client = NewWithAPIToken (ascii "T") ∧
    homeProvider.identifier = some (AccountIdentifier (ascii "acc")) ∧
    homeProvider.bootstrap = some { State := ascii "sst-state" } ∧
    (homeProvider.getData memBackend (ascii "passphrase") (ascii "app") (ascii "dev")
      { remote := emptyMem, log := [] }).1 = Outcome.ret (none, none) :=
  ⟨rfl, rfl, rfl,
    ((getData_outcomes memBackend homeProvider (ascii "passphrase") (ascii "app") (ascii "dev")
      { remote := emptyMem, log := [] }
      { APIKey := [], APIEmail := [], APIToken := ascii "T", authType := AuthType.AuthToken }
      (AccountIdentifier (ascii "acc")) { State := ascii "sst-state" }
      (by decide) rfl rfl).1
      { Error := ascii "The specified key does not exist. (10007)" } emptyMem rfl).1
      rfl⟩

/-- C4. Round trip: on a bootstrapped provider, over a backend that answers a
GET with the body last PUT at the same request path, `putData` followed by
`getData` at the same address returns a reader over the identical content
with a nil error, for every address and every content; and `setPassphrase`
followed by `getPassphrase` returns the passphrase set, with a nil error. -/
theorem put_get_roundtrip {σ : Type} (B : Backend σ) (c : CloudflareProvider)
    (kind app stage : GoString) (data : Bytes) (w : World σ) (api : API)
    (rc : ResourceContainer) (b : bootstrap) (hc : c.client = some api)
    (hi : c.identifier = some rc) (hb : c.bootstrap = some b)
    (hB : ∀ path body s,
      (B.makeRequestContext api Method.GET path none
        (B.makeRequestContext api Method.PUT path (some body) s).2).1 = Except.ok body) :
    (c.getData B kind app stage (c.putData B kind app stage (some data) w).2).1 =
      Outcome.ret (some data, none) ∧
    ∀ passphrase : GoString,
      (c.getPassphrase B app stage (c.setPassphrase B app stage passphrase w).2).1 =
        Outcome.ret (passphrase, none) := by
  have key : ∀ (kind : GoString) (data : Bytes),
      (c.getData B kind app stage (c.putData B kind app stage (some data) w).2).1 =
        Outcome.ret (some data, none) := by
    intro kind data
    have hput : (c.putData B kind app stage (some data) w).2.remote =
        (B.makeRequestContext api Method.PUT
          (ascii "/accounts/" ++ rc.Identifier ++ ascii "/r2/buckets/" ++ b.State
            ++ ascii "/objects/" ++ Join [kind, app, stage]) (some data) w.remote).2 := by
      rw [putData_world B c kind app stage (some data) w api rc b hc hi hb]
      rfl
    have hget := hB (ascii "/accounts/" ++ rc.Identifier ++ ascii "/r2/buckets/" ++ b.State
      ++ ascii "/objects/" ++ Join [kind, app, stage]) data w.remote
    rw [← hput] at hget
    rw [getData_of_bootstrapped B c kind app stage _ api rc b hc hi hb]
    simp only [World.makeRequestContext]
    generalize hr : B.makeRequestContext api Method.GET
      (ascii "/accounts/" ++ rc.Identifier ++ ascii "/r2/buckets/" ++ b.State
        ++ ascii "/objects/" ++ Join [kind, app, stage]) none
      (c.putData B kind app stage (some data) w).2.remote = r at hget
    obtain ⟨r1, r2⟩ := r
    simp only at hget
    subst hget
    rfl
  refine ⟨key kind data, ?_⟩
  intro passphrase
  have h := key (ascii "passphrase") passphrase
  unfold CloudflareProvider.getPassphrase CloudflareProvider.setPassphrase
  generalize hg : c.getData B (ascii "passphrase") app stage
    (c.putData B (ascii "passphrase") app stage (some passphrase) w).2 = g at h
  obtain ⟨g1, g2⟩ := g
  simp only at h
  subst h
  rfl

/-- The in-memory backend answers a GET with the body last PUT at the path. -/
theorem memBackend_get_put (api : API) (path : GoString) (body : Bytes) (m : Mem) :
    (memBackend.makeRequestContext api Method.GET path none
      (memBackend.makeRequestContext api Method.PUT path (some body) m).2).1 = Except.ok body := by
  simp [memBackend]

/-- Instance of C4 on the in-memory backend. -/
theorem put_get_roundtrip_witness :
    (∀ path body s,
      (memBackend.makeRequestContext
        { APIKey := [], APIEmail := [], APIToken := ascii "T", authType := AuthType.AuthToken }
        Method.GET path none
        (memBackend.makeRequestContext
          { APIKey := [], APIEmail := [], APIToken := ascii "T", authType := AuthType.AuthToken }
          Method.PUT path (some body) s).2).1 = Except.ok body) ∧
    (homeProvider.getData memBackend (ascii "state") (ascii "app") (ascii "dev")
      (homeProvider.putData memBackend (ascii "state") (ascii "app") (ascii "dev")
        (some [1, 2, 3]) { remote := emptyMem, log := [] }).2).1 =
      Outcome.ret (some [1, 2, 3], none) ∧
    (homeProvider.getPassphrase memBackend (ascii "app") (ascii "dev")
      (homeProvider.setPassphrase memBackend (ascii "app") (ascii "dev") (ascii "secret")
        { remote := emptyMem, log := [] }).2).1 = Outcome.ret (ascii "secret", none) :=
  have h := put_get_roundtrip memBackend homeProvider (ascii "state") (ascii "app") (ascii "dev")
    [1, 2, 3] { remote := emptyMem, log := [] }
    { APIKey := [], APIEmail := [], APIToken := ascii "T", authType := AuthType.AuthToken }
    (AccountIdentifier (ascii "acc")) { State := ascii "sst-state" } (by decide) rfl rfl
    (fun path body s => memBackend_get_put _ path body s)
  ⟨fun path body s => memBackend_get_put _ path body s, h.1, h.2 (ascii "secret")⟩

/-- C9, the claim fails: on the provider `Init` leaves behind, whose bootstrap
record is nil, `putData` panics on the nil record; it returns no error. -/
theorem blob_before_bootstrap_counterexample :
    authenticatedProvider.bootstrap = none ∧
    (authenticatedProvider.putData memBackend (ascii "passphrase") (ascii "app") (ascii "dev")
      (some [1]) { remote := emptyMem, log := [] }).1 =
      Outcome.crash "invalid memory address or nil pointer dereference" ∧
    ∀ err : GoError,
      (authenticatedProvider.putData memBackend (ascii "passphrase") (ascii "app") (ascii "dev")
        (some [1]) { remote := emptyMem, log := [] }).1 ≠ Outcome.ret (some err) := by
  refine ⟨by decide, by decide, ?_⟩
  intro err h
  have h2 : (authenticatedProvider.putData memBackend (ascii "passphrase") (ascii "app")
      (ascii "dev") (some [1]) { remote := emptyMem, log := [] }).1 =
      Outcome.crash "invalid memory address or nil pointer dereference" := by decide
  rw [h2] at h
  exact Outcome.noConfusion h

/-- C9, amended. For every address and data, on a provider whose bootstrap
record is nil, `putData`, `getData`, `removeData`, `setPassphrase` and
`getPassphrase` abort with the nil-dereference panic instead of returning an
error, and issue no backend request: the world, log included, is unchanged. -/
theorem blob_before_bootstrap_panics {σ : Type} (B : Backend σ) (c : CloudflareProvider)
    (kind app stage : GoString) (data : Option Bytes) (passphrase : GoString) (w : World σ)
    (hb : c.bootstrap = none) :
    c.putData B kind app stage data w =
      (Outcome.crash "invalid memory address or nil pointer dereference", w) ∧
    c.getData B kind app stage w =
      (Outcome.crash "invalid memory address or nil pointer dereference", w) ∧
    c.removeData B kind app stage w =
      (Outcome.crash "invalid memory address or nil pointer dereference", w) ∧
    c.setPassphrase B app stage passphrase w =
      (Outcome.crash "invalid memory address or nil pointer dereference", w) ∧
    c.getPassphrase B app stage w =
      (Outcome.crash "invalid memory address or nil pointer dereference", w) := by
  have hput : ∀ kind data, c.putData B kind app stage data w =
      (Outcome.crash "invalid memory address or nil pointer dereference", w) := by
    intro kind data
    unfold CloudflareProvider.putData
    cases hi : c.identifier <;> simp only [hb]
  have hget : ∀ kind, c.getData B kind app stage w =
      (Outcome.crash "invalid memory address or nil pointer dereference", w) := by
    intro kind
    unfold CloudflareProvider.getData
    cases hi : c.identifier <;> simp only [hb]
  refine ⟨hput kind data, hget kind, ?_, hput _ _, ?_⟩
  · unfold CloudflareProvider.removeData
    cases hi : c.identifier <;> simp only [hb]
  · unfold CloudflareProvider.getPassphrase
    rw [hget]

/-- Instance of C9 as amended, on the provider `Init` leaves behind. -/
theorem blob_before_bootstrap_panics_witness :
    authenticatedProvider.bootstrap = none ∧
    authenticatedProvider.getPassphrase memBackend (ascii "app") (ascii "dev")
        { remote := emptyMem, log := [] } =
      (Outcome.crash "invalid memory address or nil pointer dereference",
        { remote := emptyMem, log := [] }) :=
  ⟨by decide,
    (blob_before_bootstrap_panics memBackend authenticatedProvider [] (ascii "app") (ascii "dev")
      none [] { remote := emptyMem, log := [] } (by decide)).2.2.2.2⟩

/-! ## Bootstrap -/

/-- The loop of `AsHome` over the buckets listed: the record is set when a
bucket named `sst-state` is among them, and the provider is unchanged
otherwise. -/
theorem adopt_eq (bs : List R2Bucket) (c : CloudflareProvider) :
    bs.foldl
        (fun (c : CloudflareProvider) bucket =>
          if bucket.Name = ascii "sst-state" then
            { c with bootstrap := some { State := bucket.Name } }
          else c)
        c =
      if ∃ b ∈ bs, b.Name = ascii "sst-state" then
        { c with bootstrap := some { State := ascii "sst-state" } }
      else c := by
  induction bs generalizing c with
  | nil => simp
  | cons b bs ih =>
    rw [List.foldl_cons, ih]
    by_cases hb : b.Name = ascii "sst-state"
    · have hex : ∃ x ∈ b :: bs, x.Name = ascii "sst-state" := ⟨b, List.mem_cons_self _ _, hb⟩
      rw [if_pos hex, if_pos hb, hb]
      split <;> rfl
    · rw [if_neg hb]
      by_cases hex : ∃ x ∈ bs, x.Name = ascii "sst-state"
      · have hex2 : ∃ x ∈ b :: bs, x.Name = ascii "sst-state" := by
          obtain ⟨x, hx, hn⟩ := hex
          exact ⟨x, List.mem_cons_of_mem _ hx, hn⟩
        rw [if_pos hex, if_pos hex2]
      · have hex2 : ¬ ∃ x ∈ b :: bs, x.Name = ascii "sst-state" := by
          rintro ⟨x, hx, hn⟩
          rcases List.mem_cons.mp hx with rfl | hx
          · exact hb hn
          · exact hex ⟨x, hx, hn⟩
        rw [if_neg hex, if_neg hex2]

/-- The run of `AsHome` on a provider with a client and an account. -/
theorem AsHome_eq {σ : Type} (B : Backend σ) (c : CloudflareProvider) (app stage : GoString)
    (w : World σ) (api : API) (rc : ResourceContainer) (hc : c.client = some api)
    (hi : c.identifier = some rc) :
    c.AsHome B app stage w =
      match World.ListR2Buckets B api rc (ascii "sst-state") w with
      | (Except.error err, w1) => (Outcome.ret (some (GoError.api err)), c, w1)
      | (Except.ok bs, w1) =>
        if ∃ b ∈ bs, b.Name = ascii "sst-state" then
          (Outcome.ret none, { c with bootstrap := some { State := ascii "sst-state" } }, w1)
        else
          match c.bootstrap with
          | some _ => (Outcome.ret none, c, w1)
          | none =>
            match World.CreateR2Bucket B api rc (ascii "sst-state") w1 with
            | (Except.error err, w2) => (Outcome.ret (some (GoError.api err)), c, w2)
            | (Except.ok _, w2) =>
              (Outcome.ret none,
                { c with bootstrap := some { State := ascii "sst-state" } }, w2) := by
  unfold CloudflareProvider.AsHome
  simp only [hc, hi]
  generalize World.ListR2Buckets B api rc (ascii "sst-state") w = r
  obtain ⟨r1, w1⟩ := r
  cases r1 with
  | error err => rfl
  | ok bs =>
    simp only [adopt_eq]
    by_cases hex : ∃ b ∈ bs, b.Name = ascii "sst-state"
    · simp only [if_pos hex, hc, hi]
    · simp only [if_neg hex]
      cases hboot : c.bootstrap with
      | some b0 => rfl
      | none =>
        simp only
        generalize World.CreateR2Bucket B api rc (ascii "sst-state") w1 = r2
        obtain ⟨r3, w2⟩ := r2
        cases r3 with
        | error err => simp only [hboot]
        | ok b1 => simp only [hboot, hc, hi]

/-- A successful first run of `AsHome` on a provider without a record: the
record names `sst-state`, the account is kept, the bucket is listed from then
on, and at most one create request was issued. -/
theorem AsHome_first {σ : Type} (B : Backend σ) (p p1 : CloudflareProvider)
    (app stage : GoString) (w0 w1 : World σ) (rc : ResourceContainer)
    (hrc : p.identifier = some rc) (hfresh : p.bootstrap = none)
    (hfirst : p.AsHome B app stage w0 = (Outcome.ret none, p1, w1))
    (hCreate : ∀ api s b s', B.CreateR2Bucket api rc (ascii "sst-state") s = (Except.ok b, s') →
      B.listsBucket rc (ascii "sst-state") s')
    (hList : ∀ api s bs s', B.ListR2Buckets api rc (ascii "sst-state") s = (Except.ok bs, s') →
      (∃ b ∈ bs, b.Name = ascii "sst-state") → B.listsBucket rc (ascii "sst-state") s') :
    p1.bootstrap = some { State := ascii "sst-state" } ∧ p1.identifier = some rc ∧
    B.listsBucket rc (ascii "sst-state") w1.remote ∧
    ∃ extra, w1.log = w0.log ++ extra ∧ extra.countP Request.isCreate ≤ 1 := by
  cases hc : p.client with
  | none =>
    simp only [CloudflareProvider.AsHome, hc] at hfirst
    cases hfirst
  | some api =>
    rw [AsHome_eq B p app stage w0 api rc hc hrc] at hfirst
    simp only [World.ListR2Buckets] at hfirst
    cases hl : B.ListR2Buckets api rc (ascii "sst-state") w0.remote with
    | mk r1 s1 =>
      rw [hl] at hfirst
      cases r1 with
      | error err =>
        simp only [Prod.mk.injEq] at hfirst
        exact absurd hfirst.1 (by simp)
      | ok bs =>
        simp only at hfirst
        by_cases hex : ∃ b ∈ bs, b.Name = ascii "sst-state"
        · rw [if_pos hex] at hfirst
          simp only [Prod.mk.injEq, true_and] at hfirst
          obtain ⟨hp1, hw1⟩ := hfirst
          subst hp1 hw1
          refine ⟨rfl, hrc, hList api _ bs s1 hl hex, [_], rfl, ?_⟩
          simp [Request.isCreate]
        · rw [if_neg hex] at hfirst
          simp only [hfresh, World.CreateR2Bucket] at hfirst
          cases hcr : B.CreateR2Bucket api rc (ascii "sst-state") s1 with
          | mk r2 s2 =>
            rw [hcr] at hfirst
            cases r2 with
            | error err =>
              simp only [Prod.mk.injEq] at hfirst
              exact absurd hfirst.1 (by simp)
            | ok b1 =>
              simp only [Prod.mk.injEq, true_and] at hfirst
              obtain ⟨hp1, hw1⟩ := hfirst
              subst hp1 hw1
              refine ⟨rfl, hrc, hCreate api s1 b1 s2 hcr,
                [Request.listR2Buckets rc.Identifier (ascii "sst-state"),
                  Request.createR2Bucket rc.Identifier (ascii "sst-state")], by simp, ?_⟩
              simp [Request.isCreate]

/-- A run of `AsHome` in a state in which the bucket is listed: no create
request is issued, a successful run leaves the record naming `sst-state`, and
a record naming `sst-state` is kept in any case. -/
theorem AsHome_listed {σ : Type} (B : Backend σ) (q : CloudflareProvider)
    (app stage : GoString) (w1 : World σ) (rc : ResourceContainer)
    (hrc : q.identifier = some rc)
    (hlisted : B.listsBucket rc (ascii "sst-state") w1.remote) :
    ∃ extra, (q.AsHome B app stage w1).2.2.log = w1.log ++ extra ∧
      (∀ r ∈ extra, Request.isCreate r = false) ∧
      ((q.AsHome B app stage w1).1 = Outcome.ret none →
        (q.AsHome B app stage w1).2.1.bootstrap = some { State := ascii "sst-state" }) ∧
      (q.bootstrap = some { State := ascii "sst-state" } →
        (q.AsHome B app stage w1).2.1.bootstrap = some { State := ascii "sst-state" }) := by
  cases hc : q.client with
  | none =>
    have hres : q.AsHome B app stage w1 =
        (Outcome.crash "invalid memory address or nil pointer dereference", q, w1) := by
      simp only [CloudflareProvider.AsHome, hc]
    rw [hres]
    refine ⟨[], by simp, by simp, ?_, fun h => h⟩
    intro h
    cases h
  | some api =>
    rw [AsHome_eq B q app stage w1 api rc hc hrc]
    simp only [World.ListR2Buckets]
    cases hl : B.ListR2Buckets api rc (ascii "sst-state") w1.remote with
    | mk r1 s1 =>
      cases r1 with
      | error err =>
        refine ⟨[_], rfl, ?_, ?_, fun h => h⟩
        · simp [Request.isCreate]
        · intro h
          simp at h
      | ok bs =>
        have hex := hlisted api bs s1 hl
        simp only [if_pos hex]
        refine ⟨[_], rfl, ?_, fun _ => trivial, fun _ => trivial⟩
        simp [Request.isCreate]

/-- C3. Bootstrap is idempotent. Let a first call of `AsHome`, on a provider
without a bootstrap record, succeed; let the backend show a bucket in its
list once it was created, and keep showing a bucket it has listed. Then a
second call of `AsHome` on the same account, from the same provider or from
another one without a record, issues no create-bucket request; over both
calls at most one create-bucket request is issued; the bootstrap record names
`sst-state` after the first call, and after the second call whenever that
call is made from the same provider or succeeds. -/
theorem asHome_idempotent {σ : Type} (B : Backend σ) (p p1 q : CloudflareProvider)
    (app stage app2 stage2 : GoString) (w0 w1 : World σ) (rc : ResourceContainer)
    (hrc : p.identifier = some rc) (hfresh : p.bootstrap = none)
    (hfirst : p.AsHome B app stage w0 = (Outcome.ret none, p1, w1))
    (hq : q = p1 ∨ (q.bootstrap = none ∧ q.identifier = some rc))
    (hCreate : ∀ api s b s', B.CreateR2Bucket api rc (ascii "sst-state") s = (Except.ok b, s') →
      B.listsBucket rc (ascii "sst-state") s')
    (hList : ∀ api s bs s', B.ListR2Buckets api rc (ascii "sst-state") s = (Except.ok bs, s') →
      (∃ b ∈ bs, b.Name = ascii "sst-state") → B.listsBucket rc (ascii "sst-state") s') :
    (∀ r ∈ (q.AsHome B app2 stage2 w1).2.2.log.drop w1.log.length, Request.isCreate r = false) ∧
    ((q.AsHome B app2 stage2 w1).2.2.log.drop w0.log.length).countP Request.isCreate ≤ 1 ∧
    p1.bootstrap = some { State := ascii "sst-state" } ∧
    ((q = p1 ∨ (q.AsHome B app2 stage2 w1).1 = Outcome.ret none) →
      (q.AsHome B app2 stage2 w1).2.1.bootstrap = some { State := ascii "sst-state" }) := by
  obtain ⟨hboot1, hid1, hlisted, extra1, hlog1, hcount1⟩ :=
    AsHome_first B p p1 app stage w0 w1 rc hrc hfresh hfirst hCreate hList
  have hqrc : q.identifier = some rc := by
    rcases hq with hq | hq
    · rw [hq]
      exact hid1
    · exact hq.2
  obtain ⟨extra2, hlog2, hnone2, hok2, hkeep2⟩ :=
    AsHome_listed B q app2 stage2 w1 rc hqrc hlisted
  have hcount2 : extra2.countP Request.isCreate = 0 := by
    rw [List.countP_eq_zero]
    intro r hr
    simp [hnone2 r hr]
  refine ⟨?_, ?_, hboot1, ?_⟩
  · rw [hlog2, List.drop_left]
    exact hnone2
  · rw [hlog2, hlog1, List.append_assoc, List.drop_left, List.countP_append, hcount2]
    exact hcount1
  · rintro (h | h)
    · apply hkeep2
      rw [h]
      exact hboot1
    · exact hok2 h

/-- The in-memory backend lists a bucket once it was created. -/
theorem memBackend_lists_created (rc : ResourceContainer) (name : GoString) (api : API)
    (s : Mem) (b : R2Bucket) (s' : Mem)
    (h : memBackend.CreateR2Bucket api rc name s = (Except.ok b, s')) :
    memBackend.listsBucket rc name s' := by
  intro api2 bs s2 hl
  simp only [memBackend, Prod.mk.injEq, Except.ok.injEq] at h hl
  obtain ⟨_, hs'⟩ := h
  obtain ⟨hbs, _⟩ := hl
  subst hs' hbs
  refine ⟨{ Name := name }, ?_, rfl⟩
  simp [List.mem_map, List.mem_filter, List.infix_refl]

/-- The in-memory backend keeps listing a bucket it has listed. -/
theorem memBackend_lists_listed (rc : ResourceContainer) (name : GoString) (api : API)
    (s : Mem) (bs : List R2Bucket) (s' : Mem)
    (h : memBackend.ListR2Buckets api rc name s = (Except.ok bs, s'))
    (hex : ∃ b ∈ bs, b.Name = name) : memBackend.listsBucket rc name s' := by
  intro api2 bs' s2 hl
  simp only [memBackend, Prod.mk.injEq, Except.ok.injEq] at h hl
  obtain ⟨hbs, hs'⟩ := h
  obtain ⟨hbs', _⟩ := hl
  subst hs'
  rw [← hbs', hbs]
  exact hex

/-- Instance of C3 on the in-memory backend: the first call creates the
bucket on the empty account, a second call from another provider without a
record finds it, and over both calls one create request is issued. -/
theorem asHome_idempotent_witness :
    authenticatedProvider.identifier = some (AccountIdentifier (ascii "acc")) ∧
    authenticatedProvider.bootstrap = none ∧
    (authenticatedProvider.AsHome memBackend [] [] { remote := emptyMem, log := [] }).1 =
      Outcome.ret none ∧
    ((authenticatedProvider.AsHome memBackend [] []
        (authenticatedProvider.AsHome memBackend [] []
          { remote := emptyMem, log := [] }).2.2).2.2.log.drop 0).countP Request.isCreate ≤ 1 ∧
    (authenticatedProvider.AsHome memBackend [] []
        (authenticatedProvider.AsHome memBackend [] []
          { remote := emptyMem, log := [] }).2.2).2.1.bootstrap =
      some { State := ascii "sst-state" } :=
  have h := asHome_idempotent memBackend authenticatedProvider
    (authenticatedProvider.AsHome memBackend [] [] { remote := emptyMem, log := [] }).2.1
    authenticatedProvider [] [] [] [] { remote := emptyMem, log := [] }
    (authenticatedProvider.AsHome memBackend [] [] { remote := emptyMem, log := [] }).2.2
    (AccountIdentifier (ascii "acc")) (by decide) (by decide) rfl
    (Or.inr ⟨by decide, by decide⟩)
    (fun api s b s' hc => memBackend_lists_created _ _ api s b s' hc)
    (fun api s bs s' hl hex => memBackend_lists_listed _ _ api s bs s' hl hex)
  ⟨by decide, by decide, by decide, h.2.1, h.2.2.2 (Or.inr (by decide))⟩

/-! ## The object path -/

/-- More fuel does not change the result of the loop of `Clean`. -/
theorem cleanLoop_succ (rooted : Bool) (fuel : Nat) :
    ∀ (path out : List UInt8) (dotdot : Nat) (x : List UInt8),
      cleanLoop rooted fuel path out dotdot = some x →
      cleanLoop rooted (fuel + 1) path out dotdot = some x := by
  induction fuel with
  | zero =>
    intro path out dotdot x h
    cases path with
    | nil => simpa [cleanLoop] using h
    | cons c rest => simp [cleanLoop] at h
  | succ f ih =>
    intro path out dotdot x h
    cases path with
    | nil => simpa [cleanLoop] using h
    | cons c rest =>
      rw [cleanLoop] at h ⊢
      split_ifs at h ⊢ <;> exact ih _ _ _ _ h

/-- More fuel does not change the result of the loop of `Clean`. -/
theorem cleanLoop_mono (rooted : Bool) (fuel extra : Nat) (path out : List UInt8)
    (dotdot : Nat) (x : List UInt8) (h : cleanLoop rooted fuel path out dotdot = some x) :
    cleanLoop rooted (fuel + extra) path out dotdot = some x := by
  induction extra with
  | zero => exact h
  | succ n ih => exact cleanLoop_succ rooted (fuel + n) path out dotdot x ih

/-- The loop of `Clean` terminates: one unit of fuel per byte left is enough. -/
theorem cleanLoop_isSome (rooted : Bool) (fuel : Nat) :
    ∀ (path out : List UInt8) (dotdot : Nat), path.length ≤ fuel →
      ∃ x, cleanLoop rooted fuel path out dotdot = some x := by
  induction fuel with
  | zero =>
    intro path out dotdot h
    cases path with
    | nil => exact ⟨out, by simp [cleanLoop]⟩
    | cons c rest => simp at h
  | succ f ih =>
    intro path out dotdot h
    cases path with
    | nil => exact ⟨out, by simp [cleanLoop]⟩
    | cons c rest =>
      have hrest : rest.length ≤ f := by simpa using h
      have htail : rest.tail.length ≤ f := by
        rw [List.length_tail]
        omega
      have hspan : c ≠ Separator →
          ((c :: rest).span (fun b => b ≠ Separator)).2.length ≤ f := by
        intro h1
        rw [List.span_eq_take_drop]
        have hd : List.dropWhile (fun b => decide (b ≠ Separator)) (c :: rest) =
            List.dropWhile (fun b => decide (b ≠ Separator)) rest := by
          rw [List.dropWhile_cons, if_pos (by simpa using h1)]
        rw [hd]
        exact le_trans (List.dropWhile_sublist _).length_le hrest
      rw [cleanLoop]
      split_ifs with h1
      all_goals first
        | exact ih _ _ _ hrest
        | exact ih _ _ _ htail
        | exact ih _ _ _ (hspan h1)

/-- The model of `filepath.Join` on inputs whose result the documentation of
the function and of `Clean` fixes: empty elements are ignored, repeated
separators, `.` and inner `..` are removed, `..` is kept at the start of a
relative path and dropped at the root. -/
theorem Join_examples :
    Join [ascii "a", ascii "b", ascii "c"] = ascii "a/b/c" ∧
    Join [ascii "a", ascii "", ascii "c"] = ascii "a/c" ∧
    Join [ascii "", ascii "a", ascii "c"] = ascii "a/c" ∧
    Join [ascii "a", ascii "..", ascii "c"] = ascii "c" ∧
    Join [ascii "a/", ascii "b", ascii "c"] = ascii "a/b/c" ∧
    Join [ascii "/", ascii "b", ascii "c"] = ascii "/b/c" ∧
    Join [ascii "..", ascii "..", ascii "c"] = ascii "../../c" ∧
    Join [ascii "", ascii "", ascii ""] = ascii "" ∧
    Join [ascii "a", ascii "b/../../..", ascii "c"] = ascii "../c" ∧
    Join [ascii "/..", ascii "b/./", ascii "c/"] = ascii "/b/c" ∧
    Join [ascii ".", ascii "", ascii ""] = ascii "." := by
  decide

/-- On a non-empty path the loop of `Clean` returns with the fuel `Clean`
gives it, so `Clean` never takes its branch for exhausted fuel. -/
theorem Clean_terminates (path : GoString) :
    ∃ out,
      (if (decide (path.head? = some Separator)) = true then
        cleanLoop (decide (path.head? = some Separator)) path.length path.tail [Separator] 1
      else cleanLoop (decide (path.head? = some Separator)) path.length path [] 0) = some out := by
  split
  · apply cleanLoop_isSome
    rw [List.length_tail]
    omega
  · exact cleanLoop_isSome _ _ _ _ _ (le_refl _)

/-- The loop of `Clean` skips a run of separators. -/
theorem cleanLoop_separators (rooted : Bool) (n fuel : Nat) (path out : List UInt8)
    (dotdot : Nat) :
    cleanLoop rooted (fuel + n) (List.replicate n Separator ++ path) out dotdot =
      cleanLoop rooted fuel path out dotdot := by
  induction n with
  | zero => rfl
  | succ n ih =>
    rw [List.replicate_succ, List.cons_append, ← Nat.add_assoc, cleanLoop, if_pos rfl]
    exact ih

/-- Splitting at the first separator gives back a component without
separator and what follows it, when that is empty or starts with a separator. -/
theorem span_component (e tail : List UInt8) (he : Separator ∉ e)
    (htail : tail = [] ∨ ∃ t, tail = Separator :: t) :
    (e ++ tail).span (fun b => b ≠ Separator) = (e, tail) := by
  have hall : ∀ a ∈ e, (decide (a ≠ Separator)) = true := by
    intro a ha
    have : a ≠ Separator := fun h => he (h ▸ ha)
    simpa using this
  rw [List.span_eq_take_drop, List.takeWhile_append_of_pos hall,
    List.dropWhile_append_of_pos hall]
  rcases htail with rfl | ⟨t, rfl⟩
  · simp
  · simp

/-- The loop of a relative `Clean` copies a plain component, after a
separator when something was written before. -/
theorem cleanLoop_component (fuel : Nat) (e tail out : List UInt8) (dotdot : Nat)
    (he : plain e) (htail : tail = [] ∨ ∃ t, tail = Separator :: t) :
    cleanLoop false (fuel + 1) (e ++ tail) out dotdot =
      cleanLoop false fuel tail
        ((if out.length ≠ 0 then out ++ [Separator] else out) ++ e) dotdot := by
  obtain ⟨hne, hsep, hdot, hdotdot⟩ := he
  have hds : dot ≠ Separator := by decide
  cases e with
  | nil => exact absurd rfl hne
  | cons c rest =>
    have hc : c ≠ Separator := fun h => hsep (h ▸ List.mem_cons_self _ _)
    have hrest : Separator ∉ rest := fun h => hsep (List.mem_cons_of_mem _ h)
    have h2 : ¬ (c = dot ∧ (rest ++ tail = [] ∨ (rest ++ tail).head? = some Separator)) := by
      rintro ⟨rfl, h⟩
      cases rest with
      | nil => exact hdot rfl
      | cons d rest2 =>
        rcases h with h | h
        · simp at h
        · simp only [List.cons_append, List.head?_cons, Option.some.injEq] at h
          exact hrest (h ▸ List.mem_cons_self _ _)
    have h3 : ¬ (c = dot ∧ (rest ++ tail).head? = some dot ∧
        ((rest ++ tail).tail = [] ∨ (rest ++ tail).tail.head? = some Separator)) := by
      rintro ⟨rfl, hh, ht⟩
      cases rest with
      | nil =>
        rcases htail with rfl | ⟨t, rfl⟩
        · simp at hh
        · simp only [List.nil_append, List.head?_cons, Option.some.injEq] at hh
          exact hds hh.symm
      | cons d rest2 =>
        simp only [List.cons_append, List.head?_cons, Option.some.injEq] at hh
        subst hh
        simp only [List.cons_append, List.tail_cons] at ht
        cases rest2 with
        | nil => exact hdotdot rfl
        | cons d2 rest3 =>
          rcases ht with ht | ht
          · simp at ht
          · simp only [List.cons_append, List.head?_cons, Option.some.injEq] at ht
            exact hrest (ht ▸ List.mem_cons_of_mem _ (List.mem_cons_self _ _))
    rw [List.cons_append, cleanLoop, if_neg hc, if_neg h2, if_neg h3]
    rw [← List.cons_append, span_component (c :: rest) tail hsep htail]
    simp

/-- What follows a component is empty or starts with a separator, when it is
a run of separators followed by anything that is itself of that kind. -/
theorem separators_tail (n : Nat) (rest : List UInt8)
    (h : n = 0 → (rest = [] ∨ ∃ t, rest = Separator :: t)) :
    List.replicate n Separator ++ rest = [] ∨
      ∃ t, List.replicate n Separator ++ rest = Separator :: t := by
  cases n with
  | zero => simpa using h rfl
  | succ n => exact Or.inr ⟨List.replicate n Separator ++ rest, by simp [List.replicate_succ]⟩

/-- On three plain components separated by runs of one or more separators and
followed by any run of separators, `Clean` returns the components joined by
single separators. -/
theorem Clean_components (k a s : GoString) (n1 n2 n3 : Nat) (hk : plain k) (ha : plain a)
    (hs : plain s) :
    Clean (k ++ (List.replicate (n1 + 1) Separator ++ (a ++ (List.replicate (n2 + 1) Separator
      ++ (s ++ (List.replicate n3 Separator ++ [])))))) =
      k ++ [Separator] ++ a ++ [Separator] ++ s := by
  have hkne : k.length ≠ 0 := fun h => hk.1 (List.length_eq_zero.mp h)
  have hane : a.length ≠ 0 := fun h => ha.1 (List.length_eq_zero.mp h)
  have hsne : s.length ≠ 0 := fun h => hs.1 (List.length_eq_zero.mp h)
  have hrun : cleanLoop false (((((n3 + 1) + (n2 + 1)) + 1) + (n1 + 1)) + 1)
      (k ++ (List.replicate (n1 + 1) Separator ++ (a ++ (List.replicate (n2 + 1) Separator
        ++ (s ++ (List.replicate n3 Separator ++ [])))))) [] 0 =
      some (k ++ [Separator] ++ a ++ [Separator] ++ s) := by
    rw [cleanLoop_component _ k _ [] 0 hk (separators_tail _ _ (by simp)),
      cleanLoop_separators,
      cleanLoop_component _ a _ _ 0 ha (separators_tail _ _ (by simp)),
      cleanLoop_separators,
      show n3 + 1 = 0 + n3 + 1 from by omega,
      cleanLoop_component _ s _ _ 0 hs (separators_tail _ _ (fun _ => Or.inl rfl)),
      cleanLoop_separators]
    simp [cleanLoop, hkne]
  have hlen : ∃ extra, (k ++ (List.replicate (n1 + 1) Separator ++ (a ++
      (List.replicate (n2 + 1) Separator ++ (s ++ (List.replicate n3 Separator ++ [])))))).length =
      (((((n3 + 1) + (n2 + 1)) + 1) + (n1 + 1)) + 1) + extra := by
    refine ⟨k.length + a.length + s.length - 3, ?_⟩
    simp only [List.length_append, List.length_replicate, List.length_nil]
    omega
  obtain ⟨extra, hextra⟩ := hlen
  have hfull := cleanLoop_mono false _ extra _ _ _ _ hrun
  rw [← hextra] at hfull
  obtain ⟨hkn, hksep, _, _⟩ := hk
  cases k with
  | nil => exact absurd rfl hkn
  | cons c rest =>
    have hc : c ≠ Separator := fun h => hksep (h ▸ List.mem_cons_self _ _)
    unfold Clean
    rw [if_neg (by simp)]
    have hroot : (decide ((c :: rest ++ (List.replicate (n1 + 1) Separator ++ (a ++
        (List.replicate (n2 + 1) Separator ++ (s ++ (List.replicate n3 Separator ++ [])))))).head?
        = some Separator)) = false := by
      simpa using hc
    simp only [hroot, Bool.false_eq_true, if_false, hfull]
    simp

/-- On three plain components, each possibly followed by redundant trailing
separators, `Join` returns the components joined by single separators. -/
theorem Join_components (k a s : GoString) (i j l : Nat) (hk : plain k) (ha : plain a)
    (hs : plain s) :
    Join [k ++ List.replicate i Separator, a ++ List.replicate j Separator,
        s ++ List.replicate l Separator] =
      k ++ [Separator] ++ a ++ [Separator] ++ s := by
  have hdrop : List.dropWhile (fun e => decide (e = []))
      [k ++ List.replicate i Separator, a ++ List.replicate j Separator,
        s ++ List.replicate l Separator] =
      [k ++ List.replicate i Separator, a ++ List.replicate j Separator,
        s ++ List.replicate l Separator] := by
    rw [List.dropWhile_cons, if_neg (by simp [hk.1])]
  unfold Join
  rw [hdrop]
  have hshape : [Separator].intercalate [k ++ List.replicate i Separator,
      a ++ List.replicate j Separator, s ++ List.replicate l Separator] =
      k ++ (List.replicate (i + 1) Separator ++ (a ++ (List.replicate (j + 1) Separator
        ++ (s ++ (List.replicate l Separator ++ []))))) := by
    simp [List.intercalate, List.intersperse, List.replicate_succ', List.append_assoc]
  simp only [hshape]
  exact Clean_components k a s i j l hk ha hs

/-- C8, the claim fails: components without a separator character do not make
the join unambiguous. An empty component is dropped, and `.` and `..` are
resolved, so distinct triples share a path; and a separator appended to an
empty first component changes the path. -/
theorem join_collision_counterexample :
    (Separator ∉ ascii "a" ∧ Separator ∉ ascii "" ∧ Separator ∉ ascii "b" ∧
      (ascii "a", ascii "", ascii "b") ≠ (ascii "", ascii "a", ascii "b") ∧
      Join [ascii "a", ascii "", ascii "b"] = Join [ascii "", ascii "a", ascii "b"]) ∧
    (Separator ∉ ascii ".." ∧ Separator ∉ ascii "." ∧
      (ascii "a", ascii "..", ascii "b") ≠ (ascii "b", ascii ".", ascii ".") ∧
      Join [ascii "a", ascii "..", ascii "b"] = Join [ascii "b", ascii ".", ascii "."]) ∧
    Join [ascii "" ++ [Separator], ascii "a", ascii "b"] ≠
      Join [ascii "", ascii "a", ascii "b"] := by
  decide

/-- C8, amended. For every two triples whose components are non-empty,
contain no separator and are neither `.` nor `..`, the object path built with
`filepath.Join` is the same only if the triples are equal; the path splits at
the separators into exactly the three components, so it has no empty
segment; and it is unchanged when a trailing separator is appended to a
component. -/
theorem join_unambiguous_plain (k a s k' a' s' : GoString) (hk : plain k) (ha : plain a)
    (hs : plain s) (hk' : plain k') (ha' : plain a') (hs' : plain s') :
    (Join [k, a, s] = Join [k', a', s'] → k = k' ∧ a = a' ∧ s = s') ∧
    (Join [k, a, s]).splitOn Separator = [k, a, s] ∧
    (∀ seg ∈ (Join [k, a, s]).splitOn Separator, seg ≠ []) ∧
    Join [k ++ [Separator], a, s] = Join [k, a, s] ∧
    Join [k, a ++ [Separator], s] = Join [k, a, s] ∧
    Join [k, a, s ++ [Separator]] = Join [k, a, s] := by
  have hjoin : ∀ (k a s : GoString) (i j l : Nat), plain k → plain a → plain s →
      Join [k ++ List.replicate i Separator, a ++ List.replicate j Separator,
        s ++ List.replicate l Separator] = [Separator].intercalate [k, a, s] := by
    intro k a s i j l hk ha hs
    rw [Join_components k a s i j l hk ha hs]
    simp [List.intercalate, List.intersperse]
  have h0 : ∀ (k a s : GoString), plain k → plain a → plain s →
      Join [k, a, s] = [Separator].intercalate [k, a, s] := by
    intro k a s hk ha hs
    simpa using hjoin k a s 0 0 0 hk ha hs
  have hsplit : ∀ (k a s : GoString), plain k → plain a → plain s →
      (Join [k, a, s]).splitOn Separator = [k, a, s] := by
    intro k a s hk ha hs
    rw [h0 k a s hk ha hs]
    apply List.splitOn_intercalate
    · intro l hl
      simp only [List.mem_cons, List.mem_singleton, List.not_mem_nil, or_false] at hl
      rcases hl with rfl | rfl | rfl
      · exact hk.2.1
      · exact ha.2.1
      · exact hs.2.1
    · simp
  refine ⟨?_, hsplit k a s hk ha hs, ?_, ?_, ?_, ?_⟩
  · intro h
    have h1 := hsplit k a s hk ha hs
    rw [h, hsplit k' a' s' hk' ha' hs'] at h1
    simp only [List.cons.injEq, and_true] at h1
    exact ⟨h1.1.symm, h1.2.1.symm, h1.2.2.symm⟩
  · intro seg hseg
    rw [hsplit k a s hk ha hs] at hseg
    simp only [List.mem_cons, List.mem_singleton, List.not_mem_nil, or_false] at hseg
    rcases hseg with rfl | rfl | rfl
    · exact hk.1
    · exact ha.1
    · exact hs.1
  · rw [h0 k a s hk ha hs]
    simpa using hjoin k a s 1 0 0 hk ha hs
  · rw [h0 k a s hk ha hs]
    simpa using hjoin k a s 0 1 0 hk ha hs
  · rw [h0 k a s hk ha hs]
    simpa using hjoin k a s 0 0 1 hk ha hs

/-- Instance of C8 as amended: the address of a passphrase. -/
theorem join_unambiguous_plain_witness :
    plain (ascii "passphrase") ∧ plain (ascii "app") ∧ plain (ascii "dev") ∧
    plain (ascii "prod") ∧
    (Join [ascii "passphrase", ascii "app", ascii "dev"]).splitOn Separator =
      [ascii "passphrase", ascii "app", ascii "dev"] ∧
    (Join [ascii "passphrase", ascii "app", ascii "dev"] =
        Join [ascii "passphrase", ascii "app", ascii "prod"] →
      ascii "passphrase" = ascii "passphrase" ∧ ascii "app" = ascii "app" ∧
        ascii "dev" = ascii "prod") :=
  have h := join_unambiguous_plain (ascii "passphrase") (ascii "app") (ascii "dev")
    (ascii "passphrase") (ascii "app") (ascii "prod")
    (by decide) (by decide) (by decide) (by decide) (by decide) (by decide)
  ⟨by decide, by decide, by decide, by decide, h.2.1, h.1⟩

end Ion
